import Mathlib

/-
Verification development for the RFM preprocessing and K-Means sweep pipeline
(src/MLProject/automate_Fakih-Widatmojo.py and src/MLProject/modelling_tuning.py).

The embedding works over exact rationals.  External library kernels with
irrational outputs (numpy log1p, the square root inside StandardScaler, the
fitted K-Means model together with silhouette scoring) are parameters of the
embedded pipeline; everything the repository itself computes is embedded as
executable Lean definitions.

Column labels and categorical labels are embedded as inductive types:
Col enumerates the dataframe columns, RetStatus the ReturnStatus categories
(notReturned stands for the label compared against on line 31 of the
preprocessing script).
-/

/-- The dataframe columns of the input dataset. -/
inductive Col
  | customerID
  | invoiceNo
  | invoiceDate
  | quantity
  | unitPrice
  | discount
  | returnStatus
deriving DecidableEq

/-- Errors raised by the preprocessing script.  keyError models the pandas
KeyError raised on first access to a missing column (the SchemaError of the
specification).  emptyData models the sklearn ValueError raised by
StandardScaler.fit on zero samples (the EmptyDatasetError of the
specification).  nanInput models the sklearn ValueError raised on NaN input. -/
inductive Err
  | keyError (c : Col)
  | emptyData
  | nanInput
deriving DecidableEq

/-- The ReturnStatus categories; notReturned is the Not Returned label. -/
inductive RetStatus
  | notReturned
  | returned
deriving DecidableEq

/-- An InvoiceDate cell.  stamp is an already parsed timestamp measured in
whole days; raw is an unparsed cell carrying the result that
pandas to_datetime with errors coerce would yield for it (none when the cell
is unparsable); missing is NaT. -/
inductive RawDate
  | stamp (d : ℤ)
  | raw (p : Option ℤ)
  | missing
deriving DecidableEq

/-- Line 20: the effect of pd.to_datetime with errors coerce on one cell. -/
def parseOne : RawDate → RawDate
  | .stamp d => .stamp d
  | .raw (some d) => .stamp d
  | .raw none => .missing
  | .missing => .missing

/-- The timestamp carried by a date cell, none for NaT or unparsed cells. -/
def dateVal : RawDate → Option ℤ
  | .stamp d => some d
  | .raw _ => none
  | .missing => none

/-- One raw input row.  Numeric cells are Option rationals, none meaning NaN. -/
structure RawRow where
  customerID : Option ℚ
  invoiceNo : Option ℕ
  invoiceDate : RawDate
  quantity : Option ℚ
  unitPrice : Option ℚ
  discount : Option ℚ
  returnStatus : Option RetStatus
deriving DecidableEq

/-- Which columns the input table carries. -/
structure Schema where
  hasCustomerID : Bool
  hasInvoiceNo : Bool
  hasInvoiceDate : Bool
  hasQuantity : Bool
  hasUnitPrice : Bool
  hasDiscount : Bool
  hasReturnStatus : Bool
deriving DecidableEq

/-- Column presence lookup for a schema. -/
def hasCol (s : Schema) : Col → Bool
  | .customerID => s.hasCustomerID
  | .invoiceNo => s.hasInvoiceNo
  | .invoiceDate => s.hasInvoiceDate
  | .quantity => s.hasQuantity
  | .unitPrice => s.hasUnitPrice
  | .discount => s.hasDiscount
  | .returnStatus => s.hasReturnStatus

/-- The six required columns of the input dataset. -/
def requiredCols : List Col :=
  [.customerID, .invoiceNo, .invoiceDate, .quantity, .unitPrice, .discount]

/-- A row after dropna on CustomerID and astype int (lines 24 and 27). -/
structure IdRow where
  customerID : ℤ
  invoiceNo : Option ℕ
  invoiceDate : RawDate
  quantity : Option ℚ
  unitPrice : Option ℚ
  discount : Option ℚ
  returnStatus : Option RetStatus
deriving DecidableEq

/-- A cleaned row after lines 39 and 40: the surviving columns plus the
DiscountClipped and TotalPrice columns. -/
structure CleanRow where
  customerID : ℤ
  invoiceNo : Option ℕ
  invoiceDate : RawDate
  quantity : Option ℚ
  unitPrice : Option ℚ
  discount : Option ℚ
  returnStatus : Option RetStatus
  discountClipped : Option ℚ
  totalPrice : Option ℚ
deriving DecidableEq

/-- astype int on a float cell: numpy casts truncate toward zero. -/
def truncQ (q : ℚ) : ℤ := q.num / q.den

/-- Lines 24 and 27 on one row: none iff CustomerID is missing, otherwise the
row with CustomerID coerced to an integer. -/
def toIdRow (r : RawRow) : Option IdRow :=
  r.customerID.map (fun c =>
    ⟨truncQ c, r.invoiceNo, r.invoiceDate, r.quantity, r.unitPrice,
      r.discount, r.returnStatus⟩)

/-- The pandas comparison x gt 0 on a possibly missing cell: NaN compares
false. -/
def gtZero : Option ℚ → Bool
  | some x => decide (0 < x)
  | none => false

/-- Line 39: Series.clip with lower 0 and upper 1.  pandas clip leaves NaN
cells as NaN, so the map does not touch none. -/
def clipOpt (q : Option ℚ) : Option ℚ :=
  q.map (fun d => min (max d 0) 1)

/-- NaN propagating multiplication of pandas column arithmetic. -/
def omul : Option ℚ → Option ℚ → Option ℚ
  | some x, some y => some (x * y)
  | _, _ => none

/-- Line 20 applied to the whole InvoiceDate column. -/
def parseDates (rows : List RawRow) : List RawRow :=
  rows.map (fun r => { r with invoiceDate := parseOne r.invoiceDate })

/-- Lines 39 and 40 on one surviving row: add DiscountClipped and
TotalPrice = Quantity * UnitPrice * (1 - DiscountClipped), with NaN
propagation. -/
def mkClean (r : IdRow) : CleanRow :=
  let dc := clipOpt r.discount
  ⟨r.customerID, r.invoiceNo, r.invoiceDate, r.quantity, r.unitPrice,
    r.discount, r.returnStatus, dc,
    omul (omul r.quantity r.unitPrice) (dc.map (fun c => 1 - c))⟩

/-- Lines 20 to 40 of preprocess_data: the cleaning stage.  Each column is
checked for presence at its first access, in source order, modelling the
pandas KeyError; the filters mirror lines 24, 30, 34, 35; lines 39 and 40 add
the two derived columns. -/
def cleanRows (s : Schema) (rows : List RawRow) : Except Err (List CleanRow) :=
  if !s.hasInvoiceDate then .error (.keyError .invoiceDate) else
  let rows1 := parseDates rows
  if !s.hasCustomerID then .error (.keyError .customerID) else
  let rows2 := rows1.filterMap toIdRow
  let rows3 := if s.hasReturnStatus then
      rows2.filter (fun r => decide (r.returnStatus = some .notReturned))
    else rows2
  if !s.hasQuantity then .error (.keyError .quantity) else
  let rows4 := rows3.filter (fun r => gtZero r.quantity)
  if !s.hasUnitPrice then .error (.keyError .unitPrice) else
  let rows5 := rows4.filter (fun r => gtZero r.unitPrice)
  if !s.hasDiscount then .error (.keyError .discount) else
  .ok (rows5.map mkClean)

/-- skipna maximum of pandas, combining two possibly missing dates. -/
def omax : Option ℤ → Option ℤ → Option ℤ
  | none, b => b
  | some x, none => some x
  | some x, some y => some (max x y)

/-- skipna maximum of the InvoiceDate column over a set of cleaned rows. -/
def maxDateOf (g : List CleanRow) : Option ℤ :=
  g.foldl (fun a r => omax a (dateVal r.invoiceDate)) none

/-- Line 46: snapshot date = max InvoiceDate + 1 day, NaT when no row has a
valid date. -/
def snapshotOf (rows : List CleanRow) : Option ℤ :=
  (maxDateOf rows).map (fun d => d + 1)

/-- Insertion into a sorted list of keys. -/
def insertSorted (x : ℤ) : List ℤ → List ℤ
  | [] => [x]
  | y :: ys => if x ≤ y then x :: y :: ys else y :: insertSorted x ys

/-- Insertion sort, modelling the ascending key order of pandas groupby. -/
def insSort : List ℤ → List ℤ
  | [] => []
  | x :: xs => insertSorted x (insSort xs)

/-- The distinct CustomerID keys in ascending order (groupby with sort). -/
def groupKeys (rows : List CleanRow) : List ℤ :=
  insSort (rows.map (fun r => r.customerID)).dedup

/-- One row of the RFM table (lines 48 to 58).  recency is Option because the
pandas day difference is NaN when a group has no valid date. -/
structure RFMRow where
  customerID : ℤ
  recency : Option ℤ
  frequency : ℕ
  monetary : ℚ
deriving DecidableEq

/-- The aggregation of lines 48 to 52 for one customer: recency from the
snapshot and the group maximum date, frequency as the count of non null
InvoiceNo cells, monetary as the skipna sum of TotalPrice. -/
def rfmFor (snap : Option ℤ) (rows : List CleanRow) (c : ℤ) : RFMRow :=
  let g := rows.filter (fun r => decide (r.customerID = c))
  { customerID := c
    recency :=
      match snap, maxDateOf g with
      | some sn, some m => some (sn - m)
      | _, _ => none
    frequency := (g.filter (fun r => r.invoiceNo.isSome)).length
    monetary := ((g.filterMap (fun r => r.totalPrice)).foldl (fun a x => a + x) 0) }

/-- Lines 44 to 58: the RFM table, one row per distinct CustomerID. -/
def buildRFM (rows : List CleanRow) : List RFMRow :=
  (groupKeys rows).map (rfmFor (snapshotOf rows) rows)

/-- Sum of a list of rationals. -/
def lsum : List ℚ → ℚ
  | [] => 0
  | x :: xs => x + lsum xs

/-- Population mean of a column. -/
def lmean (xs : List ℚ) : ℚ := lsum xs / xs.length

/-- Population variance of a column, as computed by StandardScaler. -/
def lvar (xs : List ℚ) : ℚ :=
  lsum (xs.map (fun x => (x - lmean xs) ^ 2)) / xs.length

/-- StandardScaler on one column: subtract the fitted mean and divide by the
fitted scale.  The scale is the square root of the population variance,
except that sklearn replaces a zero scale by 1; the square root itself is the
external kernel sqrtF. -/
def standardizeWith (sqrtF : ℚ → ℚ) (xs : List ℚ) : List ℚ :=
  let μ := lmean xs
  let sc := if lvar xs = 0 then 1 else sqrtF (lvar xs)
  xs.map (fun x => (x - μ) / sc)

/-- One row of the scaled output table (lines 71 and 72). -/
structure ScaledRow where
  recencyZ : ℚ
  frequencyZ : ℚ
  monetaryZ : ℚ
  customerID : ℤ
deriving DecidableEq

/-- Positional recombination of the three scaled columns with the CustomerID
column (lines 71 and 72 align on the fresh range index). -/
def zip4 : List ℚ → List ℚ → List ℚ → List ℤ → List ScaledRow
  | a :: as, b :: bs, c :: cs, d :: ds => ⟨a, b, c, d⟩ :: zip4 as bs cs ds
  | _, _, _, _ => []

/-- Line 64 on the Recency column: log1p applied entrywise.  The external
kernel np.log1p is the parameter lg.  recency cells are integers; the getD
default is never reached on data accepted by the scaler. -/
def logRecCol (lg : ℚ → ℚ) (rfm : List RFMRow) : List ℚ :=
  rfm.map (fun r => lg ((r.recency.getD 0 : ℤ) : ℚ))

/-- Line 64 on the Frequency column. -/
def logFreqCol (lg : ℚ → ℚ) (rfm : List RFMRow) : List ℚ :=
  rfm.map (fun r => lg (r.frequency : ℚ))

/-- Line 64 on the Monetary column. -/
def logMonCol (lg : ℚ → ℚ) (rfm : List RFMRow) : List ℚ :=
  rfm.map (fun r => lg r.monetary)

/-- Lines 62 to 72: log transform, StandardScaler on the three columns, and
recombination with CustomerID.  StandardScaler.fit raises on zero samples and
on NaN input; both checks are modelled here. -/
def scaleRFM (sqrtF lg : ℚ → ℚ) (rfm : List RFMRow) : Except Err (List ScaledRow) :=
  if rfm.isEmpty then .error .emptyData
  else if rfm.any (fun r => r.recency.isNone) then .error .nanInput
  else .ok (zip4
    (standardizeWith sqrtF (logRecCol lg rfm))
    (standardizeWith sqrtF (logFreqCol lg rfm))
    (standardizeWith sqrtF (logMonCol lg rfm))
    (rfm.map (fun r => r.customerID)))

/-- The whole preprocess_data function.  The first component is the state of
the caller dataframe after the call: line 20 assigns the parsed InvoiceDate
column in place on the caller dataframe (when that column exists; when it
does not, the KeyError fires before the assignment), while every later step
works on the copy taken on line 24.  The second component is the returned
scaled table or the raised error. -/
def preprocess_data (sqrtF lg : ℚ → ℚ) (s : Schema) (rows : List RawRow) :
    List RawRow × Except Err (List ScaledRow) :=
  (if s.hasInvoiceDate then parseDates rows else rows,
   match cleanRows s rows with
   | .error e => .error e
   | .ok cl =>
     if !s.hasInvoiceNo then .error (.keyError .invoiceNo)
     else scaleRFM sqrtF lg (buildRFM cl))

/-- The standardization contract for one output column: either exact zero
mean and exact unit variance, or every value exactly zero (the degenerate
zero variance policy). -/
def colOK (xs : List ℚ) : Prop :=
  (lmean xs = 0 ∧ lvar xs = 1) ∨ (∀ x ∈ xs, x = 0)

/-
Embedding of modelling_tuning.py.  The sklearn KMeans fit together with the
silhouette scoring is an external kernel, abstracted as a function from the
cluster count, the random seed and the feature matrix to either a fit result
or a raised exception.  Everything the script itself does around that kernel
is embedded: dropping CustomerID before fitting (line 23), the ascending k
range 2..6 (line 37), the fixed random_state 42 passed to every fit
(line 47), and the loop that runs the trials with no exception handler
(lines 42 to 53): an exception raised while fitting or scoring one k
propagates out of the loop and the later k values are never attempted.
-/

/-- One row of the preprocessed csv consumed by modelling_tuning.py. -/
structure DataRow where
  recency : ℚ
  frequency : ℚ
  monetary : ℚ
  customerID : ℤ
deriving DecidableEq

/-- A feature vector after dropping CustomerID. -/
abbrev FeatVec := ℚ × ℚ × ℚ

/-- Line 23: data.drop of the CustomerID column, keeping the three feature
columns of one row. -/
def dropId (r : DataRow) : FeatVec := (r.recency, r.frequency, r.monetary)

/-- The outputs of one successful KMeans fit plus silhouette scoring. -/
structure FitRes where
  labels : List ℕ
  inertia : ℚ
  silhouette : ℚ
deriving DecidableEq

/-- An exception raised by the external fit or scoring kernel. -/
inductive FitErr
  | failure (tag : ℕ)
deriving DecidableEq

/-- The external kernel: cluster count, random seed, feature matrix. -/
def Fit : Type := ℕ → ℕ → List FeatVec → Except FitErr FitRes

/-- The algorithm identifier logged for every trial. -/
inductive Algo
  | kmeans
deriving DecidableEq

/-- Line 47: random_state is the literal 42 for every k. -/
def theSeed : ℕ := 42

/-- Line 37: range(2, 7). -/
def kRange : List ℕ := [2, 3, 4, 5, 6]

/-- One reported trial: the parameters and metrics logged for one k. -/
structure Trial where
  k : ℕ
  algo : Algo
  seed : ℕ
  labels : List ℕ
  inertia : ℚ
  silhouette : ℚ
deriving DecidableEq

/-- The trial record logged for one k (lines 56 to 65). -/
def mkTrial (k : ℕ) (r : FitRes) : Trial :=
  { k := k, algo := .kmeans, seed := theSeed,
    labels := r.labels, inertia := r.inertia, silhouette := r.silhouette }

/-- Whether an Except value is a success. -/
def isOkE {ε α : Type} : Except ε α → Bool
  | .ok _ => true
  | .error _ => false

/-- The loop of lines 42 to 53 over a list of k values: each iteration fits
and scores with the fixed seed; a raised exception stops the loop at once
(there is no try block), so the result is the list of trials reported before
the failure together with the exception, if any. -/
def sweepGo (fit : Fit) (X : List FeatVec) : List ℕ → List Trial × Option FitErr
  | [] => ([], none)
  | k :: ks =>
    match fit k theSeed X with
    | .error e => ([], some e)
    | .ok r => ((mkTrial k r) :: (sweepGo fit X ks).1, (sweepGo fit X ks).2)

/-- The whole sweep over k = 2..6. -/
def runSweep (fit : Fit) (X : List FeatVec) : List Trial × Option FitErr :=
  sweepGo fit X kRange

/-- main of modelling_tuning.py after loading: drop CustomerID, then sweep. -/
def runModel (fit : Fit) (data : List DataRow) : List Trial × Option FitErr :=
  runSweep fit (data.map dropId)

/-
Concrete fixtures used by the witness and counterexample theorems.
-/

/-- A schema carrying every column. -/
def schemaAll : Schema := ⟨true, true, true, true, true, true, true⟩

/-- A schema carrying the six required columns but no ReturnStatus. -/
def schemaNoRet : Schema := ⟨true, true, true, true, true, true, false⟩

/-- An external kernel that always succeeds. -/
def fitAllOk : Fit := fun k _ _ => .ok ⟨List.replicate 7 k, 1, 0⟩

/-- An external kernel that raises at k = 3 and succeeds elsewhere, as the
silhouette scoring can do on degenerate data. -/
def fitFail3 : Fit := fun k _ _ =>
  if k = 3 then .error (.failure 0) else .ok ⟨List.replicate 7 0, 1, 0⟩

/-- A feature matrix with seven customers. -/
def sevenVecs : List FeatVec :=
  [(0, 0, 0), (1, 0, 0), (2, 0, 0), (3, 0, 0), (4, 0, 0), (5, 0, 0), (6, 0, 0)]

/-- First example row of the C8 scenario: cust 1, qty 2, price 10,
discount 0, date d1. -/
def c8row1 (d1 : ℤ) : RawRow :=
  ⟨some 1, some 100, .stamp d1, some 2, some 10, some 0, none⟩

/-- Second example row of the C8 scenario: cust 1, qty 1, price 5,
discount 0, date d2. -/
def c8row2 (d2 : ℤ) : RawRow :=
  ⟨some 1, some 101, .stamp d2, some 1, some 5, some 0, none⟩

/-- The cleaned form of the two C8 rows. -/
def c8clean (d1 d2 : ℤ) : List CleanRow :=
  [⟨1, some 100, .stamp d1, some 2, some 10, some 0, none, some 0, some 20⟩,
   ⟨1, some 101, .stamp d2, some 1, some 5, some 0, none, some 0, some 5⟩]

/-- A raw row whose Discount cell is missing. -/
def noDiscRow : RawRow :=
  ⟨some 1, some 7, .stamp 0, some 2, some 10, none, none⟩

/-- The cleaned form of noDiscRow: the missing discount survives as NaN and
poisons TotalPrice. -/
def noDiscClean : CleanRow :=
  ⟨1, some 7, .stamp 0, some 2, some 10, none, none, none, none⟩

/-- A raw row whose InvoiceDate cell is raw text that parses. -/
def textDateRow : RawRow :=
  ⟨some 1, some 8, .raw (some 18262), some 2, some 10, some 0, none⟩

/-- A raw row with every filter satisfied, used by the C7 witness. -/
def fullRow : RawRow :=
  ⟨some 3, some 9, .stamp 5, some 4, some 6, some (1/2), some .notReturned⟩

/-- A raw row with a missing CustomerID, dropped by cleaning. -/
def noCustRow : RawRow :=
  ⟨none, some 1, .stamp 0, some 1, some 1, some 0, some .notReturned⟩

/-- A raw row carrying a discount above 1, used by the C2 witness. -/
def bigDiscRow : RawRow :=
  ⟨some 5, some 11, .stamp 3, some 3, some 4, some 2, none⟩

/-- The RFM fixture of the C5 witness: two customers. -/
def rfmW : List RFMRow :=
  [⟨1, some 1, 2, 25⟩, ⟨2, some 3, 4, 35⟩]

/-- A square root kernel adequate for the C5 witness variances. -/
def sqrtW : ℚ → ℚ := fun v => if v = 25 then 5 else 1

/-- The scaled output of the C5 witness fixture. -/
def scaledW : List ScaledRow :=
  [⟨-1, -1, -1, 1⟩, ⟨1, 1, 1, 2⟩]

/-- The cleaned form of bigDiscRow: the discount 2 is clipped to 1, so the
TotalPrice is 0. -/
def bigDiscClean : CleanRow :=
  ⟨5, some 11, .stamp 3, some 3, some 4, some 2, none, some 1, some 0⟩

/-- The cleaned form of fullRow. -/
def fullClean : CleanRow :=
  ⟨3, some 9, .stamp 5, some 4, some 6, some (1/2), some .notReturned,
    some (1/2), some 12⟩

/-
Arithmetic lemmas about column sums, means and variances.
-/

theorem lsum_map_div (xs : List ℚ) (f : ℚ → ℚ) (s : ℚ) :
    lsum (xs.map (fun x => f x / s)) = lsum (xs.map f) / s := by
  induction xs with
  | nil => simp [lsum]
  | cons a t ih => simp [lsum, ih, add_div]

theorem lsum_map_sub (xs : List ℚ) (c : ℚ) :
    lsum (xs.map (fun x => x - c)) = lsum xs - xs.length * c := by
  induction xs with
  | nil => simp [lsum]
  | cons a t ih =>
    simp only [List.map_cons, lsum, ih, List.length_cons]
    push_cast
    ring

theorem length_cast_ne (xs : List ℚ) (h : xs ≠ []) : ((xs.length : ℚ)) ≠ 0 := by
  have : xs.length ≠ 0 := by simpa using List.length_pos.mpr h |>.ne'
  exact_mod_cast Nat.cast_ne_zero.mpr this

theorem lsum_center (xs : List ℚ) (h : xs ≠ []) :
    lsum (xs.map (fun x => x - lmean xs)) = 0 := by
  rw [lsum_map_sub, lmean]
  have hn := length_cast_ne xs h
  field_simp

theorem standardizeWith_length (sqrtF : ℚ → ℚ) (xs : List ℚ) :
    (standardizeWith sqrtF xs).length = xs.length := by
  simp [standardizeWith]

theorem lmean_standardize (sqrtF : ℚ → ℚ) (xs : List ℚ) (h : xs ≠ []) :
    lmean (standardizeWith sqrtF xs) = 0 := by
  unfold lmean standardizeWith
  rw [lsum_map_div xs (fun x => x - lmean xs), lsum_center xs h]
  simp

theorem lsum_sq_nonneg (xs : List ℚ) (c : ℚ) :
    0 ≤ lsum (xs.map (fun x => (x - c) ^ 2)) := by
  induction xs with
  | nil => simp [lsum]
  | cons a t ih =>
    simp only [List.map_cons, lsum]
    have := sq_nonneg (a - c)
    linarith

theorem eq_of_lsum_sq_zero (xs : List ℚ) (c : ℚ)
    (h : lsum (xs.map (fun x => (x - c) ^ 2)) = 0) : ∀ x ∈ xs, x = c := by
  induction xs with
  | nil => simp
  | cons a t ih =>
    simp only [List.map_cons, lsum] at h
    have h1 := sq_nonneg (a - c)
    have h2 := lsum_sq_nonneg t c
    intro x hx
    rcases List.mem_cons.mp hx with rfl | hx
    · have : (x - c) ^ 2 = 0 := by linarith
      have := pow_eq_zero_iff (n := 2) (by norm_num) |>.mp this
      linarith [sub_eq_zero.mp this]
    · exact ih (by linarith) x hx

theorem lvar_nonneg (xs : List ℚ) : 0 ≤ lvar xs := by
  unfold lvar
  exact div_nonneg (lsum_sq_nonneg xs (lmean xs)) (by positivity)

theorem lvar_zero_all_mean (xs : List ℚ) (h : xs ≠ []) (hv : lvar xs = 0) :
    ∀ x ∈ xs, x = lmean xs := by
  unfold lvar at hv
  have hn := length_cast_ne xs h
  have : lsum (xs.map (fun x => (x - lmean xs) ^ 2)) = 0 := by
    field_simp at hv
    exact hv
  exact eq_of_lsum_sq_zero xs (lmean xs) this

theorem lvar_standardize (sqrtF : ℚ → ℚ) (xs : List ℚ) (h : xs ≠ [])
    (hv : lvar xs ≠ 0) (hs : sqrtF (lvar xs) ^ 2 = lvar xs) :
    lvar (standardizeWith sqrtF xs) = 1 := by
  have hmean := lmean_standardize sqrtF xs h
  have hn := length_cast_ne xs h
  unfold lvar
  rw [hmean, standardizeWith_length]
  have hsc : standardizeWith sqrtF xs =
      xs.map (fun x => (x - lmean xs) / sqrtF (lvar xs)) := by
    unfold standardizeWith
    rw [if_neg hv]
  rw [hsc, List.map_map]
  have hfun : ((fun x => (x - 0) ^ 2) ∘ fun x => (x - lmean xs) / sqrtF (lvar xs)) =
      fun x => (x - lmean xs) ^ 2 / sqrtF (lvar xs) ^ 2 := by
    funext x
    simp [div_pow]
  rw [hfun, lsum_map_div xs (fun x => (x - lmean xs) ^ 2) (sqrtF (lvar xs) ^ 2)]
  have hls : lsum (xs.map (fun x => (x - lmean xs) ^ 2)) = lvar xs * xs.length := by
    unfold lvar
    field_simp
  rw [hls, hs]
  field_simp

theorem standardize_degenerate (sqrtF : ℚ → ℚ) (xs : List ℚ) (h : xs ≠ [])
    (hv : lvar xs = 0) : ∀ y ∈ standardizeWith sqrtF xs, y = 0 := by
  intro y hy
  unfold standardizeWith at hy
  rw [if_pos hv] at hy
  rcases List.mem_map.mp hy with ⟨x, hx, rfl⟩
  have := lvar_zero_all_mean xs h hv x hx
  simp [this]

theorem standardize_colOK (sqrtF : ℚ → ℚ) (xs : List ℚ) (hne : xs ≠ [])
    (hgood : 0 < lvar xs → sqrtF (lvar xs) ^ 2 = lvar xs ∧ 0 < sqrtF (lvar xs)) :
    colOK (standardizeWith sqrtF xs) := by
  by_cases hv : lvar xs = 0
  · exact Or.inr (standardize_degenerate sqrtF xs hne hv)
  · have hpos : 0 < lvar xs := lt_of_le_of_ne (lvar_nonneg xs) (Ne.symm hv)
    obtain ⟨hs, _⟩ := hgood hpos
    exact Or.inl ⟨lmean_standardize sqrtF xs hne,
      lvar_standardize sqrtF xs hne hv hs⟩

theorem zip4_maps (as bs cs : List ℚ) (ds : List ℤ)
    (hb : bs.length = as.length) (hc : cs.length = as.length)
    (hd : ds.length = as.length) :
    (zip4 as bs cs ds).map (fun r => r.recencyZ) = as ∧
    (zip4 as bs cs ds).map (fun r => r.frequencyZ) = bs ∧
    (zip4 as bs cs ds).map (fun r => r.monetaryZ) = cs ∧
    (zip4 as bs cs ds).map (fun r => r.customerID) = ds := by
  induction as generalizing bs cs ds with
  | nil =>
    rw [List.length_nil, List.length_eq_zero] at hb hc hd
    subst hb; subst hc; subst hd
    simp [zip4]
  | cons a as ih =>
    match bs, cs, ds with
    | [], _, _ => simp at hb
    | _ :: _, [], _ => simp at hc
    | _ :: _, _ :: _, [] => simp at hd
    | b :: bs, c :: cs, d :: ds =>
      simp only [List.length_cons, Nat.succ.injEq] at hb hc hd
      have := ih bs cs ds hb hc hd
      simp [zip4, this.1, this.2.1, this.2.2.1, this.2.2.2]

theorem logRecCol_length (lg : ℚ → ℚ) (rfm : List RFMRow) :
    (logRecCol lg rfm).length = rfm.length := by simp [logRecCol]

theorem logFreqCol_length (lg : ℚ → ℚ) (rfm : List RFMRow) :
    (logFreqCol lg rfm).length = rfm.length := by simp [logFreqCol]

theorem logMonCol_length (lg : ℚ → ℚ) (rfm : List RFMRow) :
    (logMonCol lg rfm).length = rfm.length := by simp [logMonCol]

theorem scaleRFM_ok_inv (sqrtF lg : ℚ → ℚ) (rfm : List RFMRow)
    (out : List ScaledRow) (h : scaleRFM sqrtF lg rfm = .ok out) :
    rfm ≠ [] ∧
    out = zip4 (standardizeWith sqrtF (logRecCol lg rfm))
      (standardizeWith sqrtF (logFreqCol lg rfm))
      (standardizeWith sqrtF (logMonCol lg rfm))
      (rfm.map (fun r => r.customerID)) := by
  unfold scaleRFM at h
  by_cases he : rfm.isEmpty
  · rw [if_pos he] at h
    exact absurd h (by simp)
  · rw [if_neg he] at h
    have hne : rfm ≠ [] := by
      intro hnil
      exact he (by simp [hnil])
    by_cases hn : rfm.any (fun r => r.recency.isNone)
    · rw [if_pos hn] at h
      exact absurd h (by simp)
    · rw [if_neg hn] at h
      exact ⟨hne, (Except.ok.injEq _ _ |>.mp h).symm⟩

/-- C5: for each of the three feature columns of the scaled output of one
run, sklearn style standardization yields exact zero population mean and
exact unit population variance, except for a zero variance input column,
where every output value is exactly 0.  The exact rational statement is
stronger than the 1e-9 tolerance of the claim.  The hypotheses state that
the external square root kernel is correct at the three variances actually
passed to it. -/
theorem scaled_features_standardized (sqrtF lg : ℚ → ℚ) (rfm : List RFMRow)
    (out : List ScaledRow) (h : scaleRFM sqrtF lg rfm = .ok out)
    (hR : 0 < lvar (logRecCol lg rfm) →
      sqrtF (lvar (logRecCol lg rfm)) ^ 2 = lvar (logRecCol lg rfm) ∧
      0 < sqrtF (lvar (logRecCol lg rfm)))
    (hF : 0 < lvar (logFreqCol lg rfm) →
      sqrtF (lvar (logFreqCol lg rfm)) ^ 2 = lvar (logFreqCol lg rfm) ∧
      0 < sqrtF (lvar (logFreqCol lg rfm)))
    (hM : 0 < lvar (logMonCol lg rfm) →
      sqrtF (lvar (logMonCol lg rfm)) ^ 2 = lvar (logMonCol lg rfm) ∧
      0 < sqrtF (lvar (logMonCol lg rfm))) :
    colOK (out.map (fun r => r.recencyZ)) ∧
    colOK (out.map (fun r => r.frequencyZ)) ∧
    colOK (out.map (fun r => r.monetaryZ)) := by
  obtain ⟨hne, hout⟩ := scaleRFM_ok_inv sqrtF lg rfm out h
  have hRne : logRecCol lg rfm ≠ [] := by
    intro hx
    exact hne (List.map_eq_nil_iff.mp hx)
  have hFne : logFreqCol lg rfm ≠ [] := by
    intro hx
    exact hne (List.map_eq_nil_iff.mp hx)
  have hMne : logMonCol lg rfm ≠ [] := by
    intro hx
    exact hne (List.map_eq_nil_iff.mp hx)
  have hmaps := zip4_maps
    (standardizeWith sqrtF (logRecCol lg rfm))
    (standardizeWith sqrtF (logFreqCol lg rfm))
    (standardizeWith sqrtF (logMonCol lg rfm))
    (rfm.map (fun r => r.customerID))
    (by simp [standardizeWith_length, logRecCol_length, logFreqCol_length])
    (by simp [standardizeWith_length, logRecCol_length, logMonCol_length])
    (by simp [standardizeWith_length, logRecCol_length])
  rw [hout]
  rw [hmaps.1, hmaps.2.1, hmaps.2.2.1]
  exact ⟨standardize_colOK sqrtF _ hRne hR,
    standardize_colOK sqrtF _ hFne hF,
    standardize_colOK sqrtF _ hMne hM⟩

/-- Witness for C5 at a concrete two customer run. -/
theorem scaled_features_standardized_witness :
    colOK (scaledW.map (fun r => r.recencyZ)) ∧
    colOK (scaledW.map (fun r => r.frequencyZ)) ∧
    colOK (scaledW.map (fun r => r.monetaryZ)) :=
  scaled_features_standardized sqrtW (fun x => x) rfmW scaledW
    (by norm_num [scaleRFM, rfmW, scaledW, standardizeWith, lmean, lvar, lsum,
      logRecCol, logFreqCol, logMonCol, sqrtW, zip4])
    (by norm_num [lvar, lmean, lsum, logRecCol, rfmW, sqrtW])
    (by norm_num [lvar, lmean, lsum, logFreqCol, rfmW, sqrtW])
    (by norm_num [lvar, lmean, lsum, logMonCol, rfmW, sqrtW])

/-- C8: the two row example.  Cleaning the rows cust 1, qty 2, price 10,
discount 0, date d1 and cust 1, qty 1, price 5, discount 0, date d2 with
d2 later than d1 and no ReturnStatus column keeps both rows with TotalPrice
20 and 5, and the aggregation yields exactly one RFM row, for customer 1,
with frequency 2, monetary 25 and recency days equal to
snapshot - d2 = (max d1 d2 + 1) - d2 = 1. -/
theorem rfm_two_row_example (d1 d2 : ℤ) (_h : d1 < d2) :
    cleanRows schemaNoRet [c8row1 d1, c8row2 d2] = .ok (c8clean d1 d2) ∧
    buildRFM (c8clean d1 d2) =
      [{ customerID := 1, recency := some 1, frequency := 2, monetary := 25 }] := by
  constructor
  · norm_num [cleanRows, schemaNoRet, parseDates, parseOne, c8row1, c8row2, c8clean,
      toIdRow, truncQ, gtZero, clipOpt, omul, mkClean,
      List.filterMap_cons, List.filter_cons, Option.map_some]
  · norm_num [buildRFM, c8clean, groupKeys, insSort, insertSorted, rfmFor, snapshotOf,
      maxDateOf, omax, dateVal, List.dedup, lsum, List.filterMap_cons, List.filter_cons,
      List.foldl_cons, List.foldl_nil]

/-- Witness for C8 at the concrete dates 10 and 20. -/
theorem rfm_two_row_example_witness :
    cleanRows schemaNoRet [c8row1 10, c8row2 20] = .ok (c8clean 10 20) ∧
    buildRFM (c8clean 10 20) =
      [{ customerID := 1, recency := some 1, frequency := 2, monetary := 25 }] :=
  rfm_two_row_example 10 20 (by norm_num)

/-
Inversion of the cleaning stage: a successful run is the image of mkClean
over rows surviving every filter.
-/

theorem cleanRows_ok_inv (s : Schema) (rows : List RawRow) (out : List CleanRow)
    (h : cleanRows s rows = .ok out) :
    ∃ mid : List IdRow,
      out = mid.map mkClean ∧
      ∀ r ∈ mid, gtZero r.quantity = true ∧ gtZero r.unitPrice = true ∧
        (s.hasReturnStatus = true → r.returnStatus = some .notReturned) := by
  unfold cleanRows at h
  cases hA : s.hasInvoiceDate with
  | false => rw [hA] at h; simp at h
  | true =>
  rw [hA] at h
  cases hB : s.hasCustomerID with
  | false => rw [hB] at h; simp at h
  | true =>
  rw [hB] at h
  cases hC : s.hasQuantity with
  | false => rw [hC] at h; simp at h
  | true =>
  rw [hC] at h
  cases hD : s.hasUnitPrice with
  | false => rw [hD] at h; simp at h
  | true =>
  rw [hD] at h
  cases hE : s.hasDiscount with
  | false => rw [hE] at h; simp at h
  | true =>
  rw [hE] at h
  simp only [Bool.not_true, if_false, Bool.false_eq_true, reduceIte] at h
  refine ⟨List.filter (fun r => gtZero r.unitPrice)
    (List.filter (fun r => gtZero r.quantity)
      (if s.hasReturnStatus = true then
        List.filter (fun r => decide (r.returnStatus = some RetStatus.notReturned))
          (List.filterMap toIdRow (parseDates rows))
      else List.filterMap toIdRow (parseDates rows))), ?_, ?_⟩
  · exact (Except.ok.injEq _ _ |>.mp h).symm
  · intro r hr
    have hr5 := List.mem_filter.mp hr
    have hr4 := List.mem_filter.mp hr5.1
    refine ⟨hr4.2, hr5.2, ?_⟩
    intro hret
    have hr3 := hr4.1
    rw [if_pos hret] at hr3
    have := List.mem_filter.mp hr3
    exact of_decide_eq_true this.2

/-- C2 corrected: for every record surviving the cleaning filters, a present
discount is clipped into the unit interval and TotalPrice is
quantity * unitPrice * (1 - clippedDiscount); a missing discount however is
NOT treated as 0: pandas clip leaves the NaN in place and the derived
TotalPrice is NaN as well. -/
theorem discount_clip_amended (s : Schema) (rows : List RawRow)
    (out : List CleanRow) (r : CleanRow)
    (h : cleanRows s rows = .ok out) (hr : r ∈ out) :
    (r.discount = none → r.discountClipped = none ∧ r.totalPrice = none) ∧
    (∀ d q p, r.discount = some d → r.quantity = some q → r.unitPrice = some p →
      r.discountClipped = some (min (max d 0) 1) ∧
      r.totalPrice = some (q * p * (1 - min (max d 0) 1))) := by
  obtain ⟨mid, hout, _⟩ := cleanRows_ok_inv s rows out h
  rw [hout] at hr
  obtain ⟨r0, _, rfl⟩ := List.mem_map.mp hr
  constructor
  · intro hd
    simp only [mkClean] at hd ⊢
    rw [hd]
    simp [clipOpt, omul]
  · intro d q p hd hq hp
    simp only [mkClean] at hd hq hp ⊢
    rw [hd, hq, hp]
    simp [clipOpt, omul]

/-- Counterexample to C2 as stated: the row with a missing discount survives
cleaning, yet its clipped discount is not 0 and its TotalPrice is not
quantity * unitPrice * (1 - 0) = 20; both stay NaN. -/
theorem discount_clip_counterexample :
    cleanRows schemaNoRet [noDiscRow] = .ok [noDiscClean] ∧
    noDiscClean.discountClipped ≠ some 0 ∧
    noDiscClean.totalPrice ≠ some (2 * 10 * (1 - 0 : ℚ)) := by
  refine ⟨?_, by simp [noDiscClean], by simp [noDiscClean]⟩
  norm_num [cleanRows, schemaNoRet, parseDates, parseOne, noDiscRow, noDiscClean,
    toIdRow, truncQ, gtZero, clipOpt, omul, mkClean, List.filterMap_cons,
    List.filter_cons]

/-- Witness for the amended C2 at a concrete run with discount 2. -/
theorem discount_clip_amended_witness :
    bigDiscClean.discountClipped = some (min (max 2 0) 1 : ℚ) ∧
    bigDiscClean.totalPrice = some ((3 : ℚ) * 4 * (1 - min (max 2 0) 1)) := by
  have H := discount_clip_amended schemaNoRet [bigDiscRow] [bigDiscClean] bigDiscClean
    (by norm_num [cleanRows, schemaNoRet, parseDates, parseOne, bigDiscRow,
      bigDiscClean, toIdRow, truncQ, gtZero, clipOpt, omul, mkClean,
      List.filterMap_cons, List.filter_cons])
    (by simp)
  exact H.2 2 3 4 rfl rfl rfl

/-- C7 corrected: every record surviving the cleaning has a present positive
quantity, a present positive unit price, a clipped discount inside the unit
interval whenever the discount is present, and, when the input carries a
ReturnStatus column, the Not Returned category.  The customer id is an
integer by construction (the astype int of line 27).  A missing discount
however stays missing in the cleaned record. -/
theorem cleaned_invariant_amended (s : Schema) (rows : List RawRow)
    (out : List CleanRow) (r : CleanRow)
    (h : cleanRows s rows = .ok out) (hr : r ∈ out) :
    gtZero r.quantity = true ∧ gtZero r.unitPrice = true ∧
    (∀ d, r.discountClipped = some d → 0 ≤ d ∧ d ≤ 1) ∧
    (s.hasReturnStatus = true → r.returnStatus = some .notReturned) := by
  obtain ⟨mid, hout, hmid⟩ := cleanRows_ok_inv s rows out h
  rw [hout] at hr
  obtain ⟨r0, hr0, rfl⟩ := List.mem_map.mp hr
  obtain ⟨hq, hp, hret⟩ := hmid r0 hr0
  refine ⟨by simpa [mkClean] using hq, by simpa [mkClean] using hp, ?_, ?_⟩
  · intro d hd
    simp only [mkClean, clipOpt] at hd
    cases hdisc : r0.discount with
    | none => rw [hdisc] at hd; simp at hd
    | some d0 =>
      rw [hdisc] at hd
      have hd2 : min (max d0 0) 1 = d := by simpa using hd
      rw [← hd2]
      exact ⟨le_min (le_max_right d0 0) zero_le_one, min_le_right _ _⟩
  · intro hs
    simpa [mkClean] using hret hs

/-- Counterexample to C7 as stated: a cleaned record whose discount related
columns carry no value inside the unit interval, because the raw discount was
missing and stayed missing. -/
theorem cleaned_invariant_counterexample :
    cleanRows schemaNoRet [noDiscRow] = .ok [noDiscClean] ∧
    (¬ ∃ d : ℚ, noDiscClean.discountClipped = some d ∧ 0 ≤ d ∧ d ≤ 1) ∧
    noDiscClean.discount = none := by
  refine ⟨?_, by simp [noDiscClean], by simp [noDiscClean]⟩
  norm_num [cleanRows, schemaNoRet, parseDates, parseOne, noDiscRow, noDiscClean,
    toIdRow, truncQ, gtZero, clipOpt, omul, mkClean, List.filterMap_cons,
    List.filter_cons]

/-- Witness for the amended C7 at a concrete run carrying a ReturnStatus
column and a discount of one half. -/
theorem cleaned_invariant_amended_witness :
    gtZero fullClean.quantity = true ∧ gtZero fullClean.unitPrice = true ∧
    ((0 : ℚ) ≤ 1/2 ∧ (1/2 : ℚ) ≤ 1) ∧
    fullClean.returnStatus = some .notReturned := by
  have H := cleaned_invariant_amended schemaAll [fullRow] [fullClean] fullClean
    (by norm_num [cleanRows, schemaAll, parseDates, parseOne, fullRow, fullClean,
      toIdRow, truncQ, gtZero, clipOpt, omul, mkClean, List.filterMap_cons,
      List.filter_cons])
    (by simp)
  exact ⟨H.1, H.2.1, H.2.2.1 (1/2) rfl, H.2.2.2 rfl⟩

/-- C3: when zero records survive cleaning, the run aborts with the empty
dataset failure and produces no feature vector output.  In the source the
snapshot max on line 46 silently yields NaT; the raised error is the sklearn
zero samples ValueError at the standardization step, modelled by
Err.emptyData. -/
theorem empty_clean_aborts (sqrtF lg : ℚ → ℚ) (s : Schema) (rows : List RawRow)
    (hno : s.hasInvoiceNo = true) (h : cleanRows s rows = .ok []) :
    (preprocess_data sqrtF lg s rows).2 = .error .emptyData := by
  simp [preprocess_data, h, hno, buildRFM, groupKeys, insSort, scaleRFM]

/-- Witness for C3: a single row whose CustomerID is missing is dropped, so
zero records survive and the run aborts. -/
theorem empty_clean_aborts_witness :
    (preprocess_data (fun x => x) (fun x => x) schemaAll [noCustRow]).2 =
      .error .emptyData :=
  empty_clean_aborts (fun x => x) (fun x => x) schemaAll [noCustRow] rfl
    (by norm_num [cleanRows, schemaAll, parseDates, parseOne, noCustRow, toIdRow,
      gtZero, List.filterMap_cons, List.filter_cons])

/-- C4: for every input table missing exactly one of the six required
columns, the run fails with the KeyError naming that column (the SchemaError
of the specification) and returns no output at all. -/
theorem missing_column_keyerror (sqrtF lg : ℚ → ℚ) (s : Schema) (rows : List RawRow)
    (c : Col) (hc : c ∈ requiredCols) (hmiss : hasCol s c = false)
    (hrest : ∀ c2 ∈ requiredCols, c2 ≠ c → hasCol s c2 = true) :
    (preprocess_data sqrtF lg s rows).2 = .error (.keyError c) := by
  fin_cases hc
  · simp only [hasCol] at hmiss
    have hA : s.hasInvoiceDate = true := by
      simpa [hasCol] using hrest .invoiceDate (by decide) (by decide)
    simp [preprocess_data, cleanRows, hmiss, hA]
  · simp only [hasCol] at hmiss
    have hA : s.hasInvoiceDate = true := by
      simpa [hasCol] using hrest .invoiceDate (by decide) (by decide)
    have hB : s.hasCustomerID = true := by
      simpa [hasCol] using hrest .customerID (by decide) (by decide)
    have hC : s.hasQuantity = true := by
      simpa [hasCol] using hrest .quantity (by decide) (by decide)
    have hD : s.hasUnitPrice = true := by
      simpa [hasCol] using hrest .unitPrice (by decide) (by decide)
    have hE : s.hasDiscount = true := by
      simpa [hasCol] using hrest .discount (by decide) (by decide)
    simp [preprocess_data, cleanRows, hmiss, hA, hB, hC, hD, hE]
  · simp only [hasCol] at hmiss
    simp [preprocess_data, cleanRows, hmiss]
  · simp only [hasCol] at hmiss
    have hA : s.hasInvoiceDate = true := by
      simpa [hasCol] using hrest .invoiceDate (by decide) (by decide)
    have hB : s.hasCustomerID = true := by
      simpa [hasCol] using hrest .customerID (by decide) (by decide)
    simp [preprocess_data, cleanRows, hmiss, hA, hB]
  · simp only [hasCol] at hmiss
    have hA : s.hasInvoiceDate = true := by
      simpa [hasCol] using hrest .invoiceDate (by decide) (by decide)
    have hB : s.hasCustomerID = true := by
      simpa [hasCol] using hrest .customerID (by decide) (by decide)
    have hC : s.hasQuantity = true := by
      simpa [hasCol] using hrest .quantity (by decide) (by decide)
    simp [preprocess_data, cleanRows, hmiss, hA, hB, hC]
  · simp only [hasCol] at hmiss
    have hA : s.hasInvoiceDate = true := by
      simpa [hasCol] using hrest .invoiceDate (by decide) (by decide)
    have hB : s.hasCustomerID = true := by
      simpa [hasCol] using hrest .customerID (by decide) (by decide)
    have hC : s.hasQuantity = true := by
      simpa [hasCol] using hrest .quantity (by decide) (by decide)
    have hD : s.hasUnitPrice = true := by
      simpa [hasCol] using hrest .unitPrice (by decide) (by decide)
    simp [preprocess_data, cleanRows, hmiss, hA, hB, hC, hD]

/-- Witness for C4 at a schema missing exactly the Discount column. -/
theorem missing_column_keyerror_witness :
    (preprocess_data (fun x => x) (fun x => x)
      ⟨true, true, true, true, true, false, true⟩ [fullRow]).2 =
      .error (.keyError .discount) :=
  missing_column_keyerror (fun x => x) (fun x => x)
    ⟨true, true, true, true, true, false, true⟩ [fullRow] .discount
    (by decide) (by decide) (by decide)

/-- Counterexample to C9 as stated: after the call the caller dataframe
differs from the input, because line 20 assigns the parsed InvoiceDate
column in place before the copy of line 24 is taken. -/
theorem preprocess_mutates_counterexample :
    (preprocess_data (fun x => x) (fun x => x) schemaAll [textDateRow]).1 ≠
      [textDateRow] := by decide

/-- C9 corrected: the call mutates exactly the InvoiceDate column of the
caller dataframe, replacing each cell by its parsed value (when the column
exists; a missing column raises before the assignment); every other column
and the row count are untouched, and the cleaned records are a fresh copy. -/
theorem preprocess_mutation_frame (sqrtF lg : ℚ → ℚ) (s : Schema)
    (rows : List RawRow) :
    (preprocess_data sqrtF lg s rows).1.map (fun r => r.customerID) =
      rows.map (fun r => r.customerID) ∧
    (preprocess_data sqrtF lg s rows).1.map (fun r => r.invoiceNo) =
      rows.map (fun r => r.invoiceNo) ∧
    (preprocess_data sqrtF lg s rows).1.map (fun r => r.quantity) =
      rows.map (fun r => r.quantity) ∧
    (preprocess_data sqrtF lg s rows).1.map (fun r => r.unitPrice) =
      rows.map (fun r => r.unitPrice) ∧
    (preprocess_data sqrtF lg s rows).1.map (fun r => r.discount) =
      rows.map (fun r => r.discount) ∧
    (preprocess_data sqrtF lg s rows).1.map (fun r => r.returnStatus) =
      rows.map (fun r => r.returnStatus) ∧
    (preprocess_data sqrtF lg s rows).1.map (fun r => r.invoiceDate) =
      rows.map (fun r =>
        if s.hasInvoiceDate then parseOne r.invoiceDate else r.invoiceDate) ∧
    (preprocess_data sqrtF lg s rows).1.length = rows.length := by
  cases hA : s.hasInvoiceDate <;>
    simp [preprocess_data, parseDates, hA, List.map_map, Function.comp]

/-
The sweep loop: correctness of the per k iteration.
-/

theorem sweepGo_spec (fit : Fit) (X : List FeatVec) (ks : List ℕ) :
    ((∀ k ∈ ks, isOkE (fit k theSeed X) = true) →
      (sweepGo fit X ks).1.map (fun t => t.k) = ks) ∧
    ((sweepGo fit X ks).2 = none ↔ ∀ k ∈ ks, isOkE (fit k theSeed X) = true) := by
  induction ks with
  | nil => simp [sweepGo]
  | cons k ks ih =>
    cases hf : fit k theSeed X with
    | error e =>
      have hki : isOkE (fit k theSeed X) = false := by rw [hf]; rfl
      constructor
      · intro hall
        rw [hall k (List.mem_cons_self k ks)] at hki
        exact absurd hki (by simp)
      · rw [show (sweepGo fit X (k :: ks)).2 = some e by simp [sweepGo, hf]]
        constructor
        · intro h
          exact absurd h (by simp)
        · intro hall
          rw [hall k (List.mem_cons_self k ks)] at hki
          exact absurd hki (by simp)
    | ok r =>
      have h1 : (sweepGo fit X (k :: ks)).1 = mkTrial k r :: (sweepGo fit X ks).1 := by
        simp [sweepGo, hf]
      have h2 : (sweepGo fit X (k :: ks)).2 = (sweepGo fit X ks).2 := by
        simp [sweepGo, hf]
      constructor
      · intro hall
        rw [h1]
        simp only [List.map_cons, mkTrial]
        rw [ih.1 (fun k2 hk2 => hall k2 (List.mem_cons_of_mem k hk2))]
      · rw [h2, ih.2]
        constructor
        · intro hall k2 hk2
          rcases List.mem_cons.mp hk2 with rfl | hk2
          · rw [hf]; rfl
          · exact hall k2 hk2
        · intro hall k2 hk2
          exact hall k2 (List.mem_cons_of_mem k hk2)

theorem sweepGo_seeds (fit : Fit) (X : List FeatVec) (ks : List ℕ) :
    (sweepGo fit X ks).1.map (fun t => t.seed) =
      List.replicate (sweepGo fit X ks).1.length theSeed := by
  induction ks with
  | nil => simp [sweepGo]
  | cons k ks ih =>
    cases hf : fit k theSeed X with
    | error e => simp [sweepGo, hf]
    | ok r => simp [sweepGo, hf, mkTrial, ih, List.replicate_succ]

/-- Counterexample to C1 as stated: on a seven customer feature matrix, an
exception at k = 3 leaves only the k = 2 outcome and aborts the sweep, so
neither are five outcomes produced nor is the failure recorded for its k
only; the loop of lines 42 to 53 has no exception handler. -/
theorem sweep_abort_counterexample :
    7 ≤ sevenVecs.length ∧
    (runSweep fitFail3 sevenVecs).1.map (fun t => t.k) = [2] ∧
    (runSweep fitFail3 sevenVecs).2 = some (.failure 0) := by decide

/-- C1 corrected: the sweep over k = 2..6 produces exactly five outcomes in
ascending k order when fitting and scoring succeed at every k; the sweep
finishes without an exception exactly when every per k fit and score
succeeds, so one failure aborts the trials for the remaining k values
instead of being recorded for that k only. -/
theorem sweep_completeness_amended (fit : Fit) (X : List FeatVec) :
    ((∀ k ∈ kRange, isOkE (fit k theSeed X) = true) →
      (runSweep fit X).1.map (fun t => t.k) = kRange ∧ (runSweep fit X).2 = none) ∧
    ((runSweep fit X).2 = none ↔ ∀ k ∈ kRange, isOkE (fit k theSeed X) = true) := by
  have h := sweepGo_spec fit X kRange
  exact ⟨fun hall => ⟨h.1 hall, h.2.mpr hall⟩, h.2⟩

/-- Witness for the amended C1: with an always succeeding kernel on seven
customers the sweep reports the five k values in order. -/
theorem sweep_completeness_amended_witness :
    (runSweep fitAllOk sevenVecs).1.map (fun t => t.k) = kRange ∧
    (runSweep fitAllOk sevenVecs).2 = none :=
  (sweep_completeness_amended fitAllOk sevenVecs).1 (by decide)

/-- C6: the embedded pipeline is a pure function of its input, the external
kernels and the seed, so two runs on identical input agree exactly, for the
scaled feature table and for every trial of the sweep; and every trial is
fitted with the one fixed seed 42 of line 47. -/
theorem pipeline_deterministic (sqrtF lg : ℚ → ℚ) (s : Schema)
    (rows1 rows2 : List RawRow) (fit : Fit) (d1 d2 : List DataRow)
    (hrows : rows1 = rows2) (hd : d1 = d2) :
    preprocess_data sqrtF lg s rows1 = preprocess_data sqrtF lg s rows2 ∧
    runModel fit d1 = runModel fit d2 ∧
    (runModel fit d1).1.map (fun t => t.seed) =
      List.replicate (runModel fit d1).1.length theSeed := by
  subst hrows
  subst hd
  exact ⟨rfl, rfl, sweepGo_seeds fit (d1.map dropId) kRange⟩

/-- Witness for C6 at concrete runs. -/
theorem pipeline_deterministic_witness :
    preprocess_data (fun x => x) (fun x => x) schemaAll [fullRow] =
      preprocess_data (fun x => x) (fun x => x) schemaAll [fullRow] ∧
    runModel fitAllOk [] = runModel fitAllOk [] ∧
    (runModel fitAllOk []).1.map (fun t => t.seed) =
      List.replicate (runModel fitAllOk []).1.length theSeed :=
  pipeline_deterministic (fun x => x) (fun x => x) schemaAll [fullRow] [fullRow]
    fitAllOk [] [] rfl rfl

theorem map_dropId_congr (d1 d2 : List DataRow)
    (h1 : d1.map (fun r => r.recency) = d2.map (fun r => r.recency))
    (h2 : d1.map (fun r => r.frequency) = d2.map (fun r => r.frequency))
    (h3 : d1.map (fun r => r.monetary) = d2.map (fun r => r.monetary)) :
    d1.map dropId = d2.map dropId := by
  induction d1 generalizing d2 with
  | nil =>
    cases d2 with
    | nil => rfl
    | cons b bs => simp at h1
  | cons a as ih =>
    cases d2 with
    | nil => simp at h1
    | cons b bs =>
      simp only [List.map_cons, List.cons.injEq] at h1 h2 h3 ⊢
      exact ⟨by simp [dropId, h1.1, h2.1, h3.1], ih bs h1.2 h2.2 h3.2⟩

/-- C10: the sweep depends on the three feature columns only.  Two inputs
that agree on Recency, Frequency and Monetary row by row yield the same
trials (labels, inertia, silhouette) and the same terminal error, whatever
the CustomerID values are, because line 23 drops CustomerID before any fit. -/
theorem sweep_ignores_customer_ids (fit : Fit) (d1 d2 : List DataRow)
    (h1 : d1.map (fun r => r.recency) = d2.map (fun r => r.recency))
    (h2 : d1.map (fun r => r.frequency) = d2.map (fun r => r.frequency))
    (h3 : d1.map (fun r => r.monetary) = d2.map (fun r => r.monetary)) :
    runModel fit d1 = runModel fit d2 := by
  unfold runModel
  rw [map_dropId_congr d1 d2 h1 h2 h3]

/-- Witness for C10: two one row inputs differing only in CustomerID. -/
theorem sweep_ignores_customer_ids_witness :
    runModel fitAllOk [⟨1, 2, 3, 100⟩] = runModel fitAllOk [⟨1, 2, 3, 999⟩] :=
  sweep_ignores_customer_ids fitAllOk [⟨1, 2, 3, 100⟩] [⟨1, 2, 3, 999⟩] rfl rfl rfl
